import Mathlib

/-!
Shallow embedding of the `alien_game` simulation core (Rust sources
`src/simple_collision.rs`, `src/bullet.rs`, `src/alien.rs`, `src/main.rs`).

Modelling conventions:
* `f32` positions, distances and speeds are embedded as `ℚ` (exact
  arithmetic standing in for the source's floating-point expressions).
* `std::time::Instant` and `std::time::Duration` are embedded as `ℚ`
  measured in milliseconds; `Duration::as_secs_f32 dt` becomes `dt / 1000`.
* The process-wide random generator (`rand::thread_rng`) is externalized:
  each call to `Alien::update` consumes at most one movement-plan draw
  (`gen_range(min_x, max_x)` for the target x, `gen_range(300, 2000)` ms for
  the duration) and at most one firing-plan redraw (`gen_bool(0.2)`,
  `gen_range(200, 700)` ms).  A `Draws` record carries the values those calls
  would return; the generator's range guarantees become hypotheses.
* Sprites only matter to the simulation through their pixel dimensions
  (the collision rectangles); entities carry those dimensions directly.
* The audio side effect in `tick` (`game.audio.bloop.play`) is a host-side
  effect outside the simulation core and is not modelled; the dead
  `keep : HashSet<usize>` built in `tick` is computed and then ignored by the
  source, so it has no observable effect and is omitted.
-/

/-- Rectangle for checking collisions (`src/simple_collision.rs`, trait
`CollisionRect`): the four values the trait exposes. -/
structure CollisionRect where
  top_left_x : ℚ
  top_left_y : ℚ
  width : ℚ
  height : ℚ
  deriving DecidableEq

/-- `are_colliding` from `src/simple_collision.rs`: strict axis-aligned
rectangle overlap test. -/
def are_colliding (rect1 rect2 : CollisionRect) : Bool :=
  decide (rect1.top_left_x < rect2.top_left_x + rect2.width)
    && decide (rect1.top_left_x + rect1.width > rect2.top_left_x)
    && decide (rect1.top_left_y < rect2.top_left_y + rect2.height)
    && decide (rect1.top_left_y + rect1.height > rect2.top_left_y)

/-- `BulletColor` from `src/bullet.rs`. -/
inductive BulletColor where
  | Red
  | Green
  deriving DecidableEq, BEq

/-- `Bullet` from `src/bullet.rs`.  The `sprite : Rc<graphics::Image>` field
matters to the simulation only through its dimensions (used by the
`CollisionRect` impl), so the bullet carries those dimensions. -/
structure Bullet where
  pos : ℚ × ℚ
  color : BulletColor
  spriteW : ℚ
  spriteH : ℚ
  deriving DecidableEq

/-- `Bullet::VELOCITY` from `src/bullet.rs`. -/
def VELOCITY : ℚ := 500

/-- `Bullet::move_down` from `src/bullet.rs`:
`pos = (pos.0, pos.1 + VELOCITY * time_passed.as_secs_f32())`. -/
def Bullet.move_down (b : Bullet) (time_passed : ℚ) : Bullet :=
  { b with pos := (b.pos.1, b.pos.2 + VELOCITY * (time_passed / 1000)) }

/-- `Bullet::deadly` from `src/bullet.rs`: `self.color != BulletColor::Green`. -/
def Bullet.deadly (b : Bullet) : Bool :=
  b.color != BulletColor.Green

/-- `impl CollisionRect for Bullet` from `src/bullet.rs`: box centered on
`pos`, sized to the sprite's dimensions. -/
def Bullet.rect (b : Bullet) : CollisionRect :=
  { top_left_x := b.pos.1 - b.spriteW / 2
    top_left_y := b.pos.2 - b.spriteH / 2
    width := b.spriteW
    height := b.spriteH }

/-- `BulletFactoryImpl` from `src/bullet.rs`: holds the red and green bullet
sprites, embedded by their dimensions. -/
structure BulletFactoryImpl where
  redW : ℚ
  redH : ℚ
  greenW : ℚ
  greenH : ℚ
  deriving DecidableEq

/-- `BulletFactoryImpl::red_bullet` from `src/bullet.rs`. -/
def BulletFactoryImpl.red_bullet (f : BulletFactoryImpl) (pos : ℚ × ℚ) : Bullet :=
  { pos := pos, color := BulletColor.Red, spriteW := f.redW, spriteH := f.redH }

/-- `BulletFactoryImpl::green_bullet` from `src/bullet.rs`. -/
def BulletFactoryImpl.green_bullet (f : BulletFactoryImpl) (pos : ℚ × ℚ) : Bullet :=
  { pos := pos, color := BulletColor.Green, spriteW := f.greenW, spriteH := f.greenH }

/-- `MovementPlan` from `src/alien.rs`. -/
structure MovementPlan where
  start_pos : ℚ × ℚ
  next_pos : ℚ × ℚ
  plan_made : ℚ
  duration : ℚ
  deriving DecidableEq

/-- `FiringPlan` from `src/alien.rs`. -/
structure FiringPlan where
  dangerous : Bool
  plan_made : ℚ
  delay : ℚ
  deriving DecidableEq

/-- The random values one `Alien::update` call may consume (see the module
doc-comment): `target` for `rng.gen_range(min_x, max_x)`, `duration` (ms) for
`gen_range(300, 2000)`, `dangerous` for `gen_bool(0.2)`, `delay` (ms) for
`gen_range(200, 700)`. -/
structure Draws where
  target : ℚ
  duration : ℚ
  dangerous : Bool
  delay : ℚ
  deriving DecidableEq

/-- `Alien` from `src/alien.rs` (the `idle`/`firing` sprite handles are
render-only and carry no simulation state). -/
structure Alien where
  pos : ℚ × ℚ
  x_movement_range : ℚ × ℚ
  firing_plan : Option FiringPlan
  movement_plan : Option MovementPlan
  deriving DecidableEq

/-- `Alien::starting_at` from `src/alien.rs`. -/
def Alien.starting_at (pos : ℚ × ℚ) (x_movement_range : ℚ × ℚ) : Alien :=
  { pos := pos, x_movement_range := x_movement_range
    movement_plan := none, firing_plan := none }

/-- The movement-plan block of `Alien::update` from `src/alien.rs` (the
`match &self.movement_plan` statement).  Two source details are preserved
faithfully: (1) the plan-expiry test is strict (`plan_made + duration < now`);
(2) the movement-plan generator closure captures `start_pos = self.pos` at
entry to `update`, so a plan generated right after a snap records the
pre-snap position as its `start_pos`. -/
def Alien.updateMovement (a : Alien) (now : ℚ) (d : Draws) : Alien :=
  let start_pos := a.pos
  let gen_movement_plan : MovementPlan :=
    { start_pos := start_pos
      next_pos := (d.target, start_pos.2)
      plan_made := now
      duration := d.duration }
  match a.movement_plan with
  | none => { a with movement_plan := some gen_movement_plan }
  | some plan =>
    if plan.plan_made + plan.duration < now then
      { a with pos := plan.next_pos, movement_plan := some gen_movement_plan }
    else
      let tween_pct := (now - plan.plan_made) / plan.duration
      { a with pos :=
          (plan.start_pos.1 + tween_pct * (plan.next_pos.1 - plan.start_pos.1),
           plan.start_pos.2 + tween_pct * (plan.next_pos.2 - plan.start_pos.2)) }

/-- `Alien::update` from `src/alien.rs`: the movement-plan block runs first,
then the firing-plan block (`match self.firing_plan`) runs on the updated
state.  The firing-plan expiry test is strict (`plan_made + delay < now`). -/
def Alien.update (a : Alien) (now : ℚ) (d : Draws) (bullet_factory : BulletFactoryImpl) :
    Alien × Option Bullet :=
  let a1 : Alien := a.updateMovement now d
  match a1.firing_plan with
  | none =>
    let initial_plan : FiringPlan := { dangerous := false, plan_made := now, delay := 1000 }
    ({ a1 with firing_plan := some initial_plan }, none)
  | some plan =>
    if plan.plan_made + plan.delay < now then
      let fired :=
        if plan.dangerous then bullet_factory.red_bullet a1.pos
        else bullet_factory.green_bullet a1.pos
      let next_plan : FiringPlan := { dangerous := d.dangerous, plan_made := now, delay := d.delay }
      ({ a1 with firing_plan := some next_plan }, some fired)
    else
      (a1, none)

/-- `PlayerIntent` from `src/main.rs`. -/
inductive PlayerIntent where
  | MoveLeft
  | MoveRight
  | StayStill
  deriving DecidableEq

/-- `Player` from `src/main.rs`, carrying its sprite's dimensions for the
`CollisionRect` impl. -/
structure Player where
  pos : ℚ × ℚ
  spriteW : ℚ
  spriteH : ℚ
  deriving DecidableEq

/-- `Player::PLAYER_SPEED` from `src/main.rs`. -/
def PLAYER_SPEED : ℚ := 1000

/-- `Player::execute_intent` from `src/main.rs`. -/
def Player.execute_intent (p : Player) (player_intent : PlayerIntent) (dt : ℚ) : Player :=
  match player_intent with
  | PlayerIntent.StayStill => p
  | PlayerIntent.MoveLeft =>
    { p with pos := (p.pos.1 - PLAYER_SPEED * (dt / 1000), p.pos.2) }
  | PlayerIntent.MoveRight =>
    { p with pos := (p.pos.1 + PLAYER_SPEED * (dt / 1000), p.pos.2) }

/-- `impl CollisionRect for Player` from `src/main.rs`. -/
def Player.rect (p : Player) : CollisionRect :=
  { top_left_x := p.pos.1 - p.spriteW / 2
    top_left_y := p.pos.2 - p.spriteH / 2
    width := p.spriteW
    height := p.spriteH }

/-- `KeysPressed` from `src/main.rs`. -/
structure KeysPressed where
  left : Bool
  right : Bool
  deriving DecidableEq

/-- `Game` from `src/main.rs`, restricted to simulation state.  `sprites`
keeps the bullet-sprite dimensions `tick` hands to `BulletFactoryImpl`. -/
structure Game where
  alien : Alien
  player : Player
  bullets : List Bullet
  last_tick : ℚ
  score : ℕ
  game_over : Bool
  screen_size : ℕ × ℕ
  keys_pressed : KeysPressed
  sprites : BulletFactoryImpl
  deriving DecidableEq

/-- `Game::player_intent` from `src/main.rs`. -/
def Game.player_intent (g : Game) : PlayerIntent :=
  if g.keys_pressed.left && g.keys_pressed.right then PlayerIntent.StayStill
  else if g.keys_pressed.left then PlayerIntent.MoveLeft
  else if g.keys_pressed.right then PlayerIntent.MoveRight
  else PlayerIntent.StayStill

/-- `distance(p1, p2) < bound` from `src/main.rs`, with the square root
eliminated by comparing squares (faithful whenever `0 ≤ bound`, and `tick`
only ever passes the non-negative screen area). -/
def distance_lt (p1 p2 : ℚ × ℚ) (bound : ℚ) : Bool :=
  decide ((p1.1 - p2.1) * (p1.1 - p2.1) + (p1.2 - p2.2) * (p1.2 - p2.2) < bound * bound)

/-- `clean_up_out_of_bounds_bullets` from `src/main.rs`. -/
def clean_up_out_of_bounds_bullets (game : Game) : Game :=
  let screen_area : ℚ := ((game.screen_size.1 * game.screen_size.2 : ℕ) : ℚ)
  { game with bullets :=
      game.bullets.filter (fun bullet => distance_lt bullet.pos (0, 0) screen_area) }

/-- The live projectile list of `tick` after steps 1-2 (advance every bullet,
run `Alien::update`, push any newly fired bullet); this is the list the
collision loop of `tick` then inspects. -/
def advancedBullets (g : Game) (dt : ℚ) (d : Draws) : List Bullet :=
  let bullets1 := g.bullets.map (fun bullet => bullet.move_down dt)
  match (g.alien.update (g.last_tick + dt) d g.sprites).2 with
  | some new_bullet => bullets1 ++ [new_bullet]
  | none => bullets1

/-- `tick` from `src/main.rs`.  The collision loop is the source's
for-loop over `(idx, bullet)` folded into the `(game_over, score)` pair; the
audio call and the dead `keep` set are omitted (see the module comment). -/
def tick (g : Game) (dt : ℚ) (d : Draws) : Game :=
  let now := g.last_tick + dt
  let alien1 := (g.alien.update now d g.sprites).1
  let bullets2 := advancedBullets g dt d
  let resolved :=
    bullets2.foldl
      (fun acc bullet =>
        if are_colliding g.player.rect bullet.rect then
          if bullet.deadly then (true, acc.2) else (acc.1, acc.2 + 1)
        else acc)
      (g.game_over, g.score)
  let bullets3 := bullets2.filter (fun bullet => !(are_colliding g.player.rect bullet.rect))
  let player1 := g.player.execute_intent g.player_intent dt
  clean_up_out_of_bounds_bullets
    { g with alien := alien1, player := player1, bullets := bullets3,
             game_over := resolved.1, score := resolved.2, last_tick := now }

/-- `tick`'s result surface (`GameResult<()>` in the source): the body
contains no error construction of its own — the only `?` operator propagates
the external audio collaborator's play result, which is outside the modelled
core — so the embedded tick always returns `ok`. -/
def tickResult (g : Game) (dt : ℚ) (d : Draws) : Except Unit Game :=
  Except.ok (tick g dt d)

/-- Iterated `Alien::update`, threading the alien state through a list of
`(now, draws)` steps. -/
def runUpdates (a : Alien) (f : BulletFactoryImpl) (steps : List (ℚ × Draws)) : Alien :=
  steps.foldl (fun acc s => (acc.update s.1 s.2 f).1) a

/-- Iterated `tick`, threading the game through a list of `(dt, draws)`
steps. -/
def runTicks (g : Game) (steps : List (ℚ × Draws)) : Game :=
  steps.foldl (fun acc s => tick acc s.1 s.2) g

/-- Concrete game for the C1 tick-ordering scenario: enemy at (50,50) with no
plans yet, player at (50,550) with a 32x32 sprite, one harmless 8x16 bullet
whose bounding box touches the player's bounding box exactly (bullet bottom
edge 534 = player top edge 534) before the tick. -/
def gC1 : Game :=
  { alien := Alien.starting_at (50, 50) (0, 800)
    player := { pos := (50, 550), spriteW := 32, spriteH := 32 }
    bullets := [⟨(50, 526), BulletColor.Green, 8, 16⟩]
    last_tick := 0, score := 0, game_over := false
    screen_size := (800, 600), keys_pressed := ⟨false, false⟩
    sprites := ⟨8, 16, 8, 16⟩ }

/-- Draws consumed by the single tick of the C1 scenario. -/
def dC1 : Draws := ⟨50, 1000, false, 500⟩

/-- Concrete game-over state used to witness C8. -/
def gC8 : Game :=
  { alien := Alien.starting_at (50, 50) (0, 800)
    player := { pos := (50, 550), spriteW := 32, spriteH := 32 }
    bullets := [], last_tick := 0, score := 3, game_over := true
    screen_size := (800, 600), keys_pressed := ⟨false, false⟩
    sprites := ⟨8, 16, 8, 16⟩ }

/-- Concrete alien used to witness the amended C2: a dangerous plan made at
t=0 with a 1000ms delay, updated at t=1500 (strictly past expiry). -/
def aC2w : Alien :=
  { pos := (50, 50), x_movement_range := (0, 800)
    firing_plan := some ⟨true, 0, 1000⟩
    movement_plan := some ⟨(50, 50), (50, 50), 0, 2000⟩ }

/-- Draws consumed at the witness update of C2. -/
def dC2 : Draws := ⟨100, 1000, false, 500⟩

/-- Bullet-sprite dimensions used by concrete aliens. -/
def fC2 : BulletFactoryImpl := ⟨8, 16, 8, 16⟩

/-- Concrete alien sitting exactly at its firing plan's expiry instant:
plan made at t=0, delay 1000ms, updated at now = 1000. -/
def aC2 : Alien :=
  { pos := (50, 50), x_movement_range := (0, 800)
    firing_plan := some ⟨false, 0, 1000⟩
    movement_plan := some ⟨(50, 50), (50, 50), 0, 2000⟩ }

/-- Concrete alien for the C3 witness: plan made at t=0 with duration 1000ms,
updated at t=1500 (strictly past expiry). -/
def aC3w : Alien :=
  { pos := (40, 50), x_movement_range := (0, 800)
    firing_plan := some ⟨false, 0, 5000⟩
    movement_plan := some ⟨(0, 50), (100, 50), 0, 1000⟩ }

/-- Draws consumed at the C3 updates. -/
def dC3 : Draws := ⟨200, 700, false, 400⟩

/-- Concrete alien sitting exactly at its movement plan's expiry instant:
plan made at t=0, duration 1000ms, updated at now = 1000. -/
def aC3 : Alien :=
  { pos := (40, 50), x_movement_range := (0, 800)
    firing_plan := some ⟨false, 0, 5000⟩
    movement_plan := some ⟨(0, 50), (100, 50), 0, 1000⟩ }

/-- Range contract of the movement draws: `gen_range(min_x, max_x)` for the
target and `gen_range(300, 2000)` ms for the duration. -/
def DrawsOk (lo hi : ℚ) (d : Draws) : Prop :=
  lo ≤ d.target ∧ d.target < hi ∧ 300 ≤ d.duration ∧ d.duration < 2000

instance (lo hi : ℚ) (d : Draws) : Decidable (DrawsOk lo hi d) :=
  inferInstanceAs (Decidable (_ ∧ _ ∧ _ ∧ _))

/-- Inductive invariant for the enemy's x-coordinate: the movement range is
fixed at `(lo, hi)`, the position's x lies inside it, and any stored movement
plan has both endpoints' x inside it, was stamped no later than `t`, and has
a positive duration. -/
def AlienInv (lo hi t : ℚ) (a : Alien) : Prop :=
  a.x_movement_range = (lo, hi) ∧
  lo ≤ a.pos.1 ∧ a.pos.1 ≤ hi ∧
  ∀ p : MovementPlan, a.movement_plan = some p →
    lo ≤ p.start_pos.1 ∧ p.start_pos.1 ≤ hi ∧
    lo ≤ p.next_pos.1 ∧ p.next_pos.1 ≤ hi ∧
    p.plan_made ≤ t ∧ 0 < p.duration

/-- Enemy starting state for the C5 witness: x inside the bound [0, 100],
no plans yet. -/
def aC5w : Alien := Alien.starting_at (50, 50) (0, 100)

/-- In-range draws (target 50 in [0,100), duration 1000 in [300,2000),
delay 500 in [200,700)) used by the C5 runs. -/
def dC5 : Draws := ⟨50, 1000, false, 500⟩

/-- Enemy starting state for the C5 counterexample: x = -100 starts OUTSIDE
the movement bound [0, 100]; all draws below respect the generator ranges. -/
def aC5 : Alien := Alien.starting_at (-100, 50) (0, 100)

/-- Concrete steady state used to witness the amended C6: both plans freshly
made at the current clock, position on the tween's start, one distant
non-colliding in-bounds bullet. -/
def gC6w : Game :=
  { alien := { pos := (50, 50), x_movement_range := (0, 800)
               firing_plan := some ⟨false, 0, 1000⟩
               movement_plan := some ⟨(50, 50), (80, 50), 0, 1000⟩ }
    player := { pos := (50, 550), spriteW := 32, spriteH := 32 }
    bullets := [⟨(50, 300), BulletColor.Green, 8, 16⟩]
    last_tick := 0, score := 0, game_over := false
    screen_size := (800, 600), keys_pressed := ⟨false, false⟩
    sprites := ⟨8, 16, 8, 16⟩ }

/-- Concrete state violating C6 as stated: a harmless projectile already
overlaps the player before the tick. -/
def gC6 : Game :=
  { alien := { pos := (50, 50), x_movement_range := (0, 800)
               firing_plan := some ⟨false, 0, 1000⟩
               movement_plan := some ⟨(50, 50), (80, 50), 0, 1000⟩ }
    player := { pos := (50, 550), spriteW := 32, spriteH := 32 }
    bullets := [⟨(50, 550), BulletColor.Green, 8, 16⟩]
    last_tick := 0, score := 0, game_over := false
    screen_size := (800, 600), keys_pressed := ⟨false, false⟩
    sprites := ⟨8, 16, 8, 16⟩ }

/-- Concrete state for the C9 counterexample: one harmless bullet at
y = 300, clock at t = 1000, both enemy plans far from expiry. -/
def gC9 : Game :=
  { alien := { pos := (50, 50), x_movement_range := (0, 800)
               firing_plan := some ⟨false, 0, 5000⟩
               movement_plan := some ⟨(50, 50), (50, 50), 0, 5000⟩ }
    player := { pos := (50, 550), spriteW := 32, spriteH := 32 }
    bullets := [⟨(50, 300), BulletColor.Green, 8, 16⟩]
    last_tick := 1000, score := 0, game_over := false
    screen_size := (800, 600), keys_pressed := ⟨false, false⟩
    sprites := ⟨8, 16, 8, 16⟩ }

/-- Ground reduction of the derived `!=` on `BulletColor` (used when
evaluating `Bullet.deadly` on concrete bullets). -/
@[simp] lemma bne_green_green : (BulletColor.Green != BulletColor.Green) = false := by rfl

/-- Ground reduction of the derived `!=` on `BulletColor`. -/
@[simp] lemma bne_red_green : (BulletColor.Red != BulletColor.Green) = true := by rfl

/-- `are_colliding` unfolded to the conjunction of its four strict
comparisons. -/
lemma are_colliding_iff (a b : CollisionRect) :
    are_colliding a b = true ↔
      (a.top_left_x < b.top_left_x + b.width ∧ a.top_left_x + a.width > b.top_left_x ∧
       a.top_left_y < b.top_left_y + b.height ∧ a.top_left_y + a.height > b.top_left_y) := by
  simp [are_colliding, and_assoc]

/-- Claim C4: the collision oracle returns true iff the two axis-aligned
rectangles overlap strictly on both axes; hence rectangles that merely touch
at an edge do not collide, any rectangle with positive width and height
collides with itself, and rectangles separated by a gap on either axis do
not collide. -/
theorem are_colliding_spec :
    (∀ a b : CollisionRect, are_colliding a b = true ↔
      (a.top_left_x < b.top_left_x + b.width ∧ a.top_left_x + a.width > b.top_left_x ∧
       a.top_left_y < b.top_left_y + b.height ∧ a.top_left_y + a.height > b.top_left_y))
    ∧ (∀ a b : CollisionRect,
        (a.top_left_x + a.width = b.top_left_x ∨ b.top_left_x + b.width = a.top_left_x ∨
         a.top_left_y + a.height = b.top_left_y ∨ b.top_left_y + b.height = a.top_left_y) →
        are_colliding a b = false)
    ∧ (∀ r : CollisionRect, 0 < r.width → 0 < r.height → are_colliding r r = true)
    ∧ (∀ a b : CollisionRect,
        (a.top_left_x + a.width < b.top_left_x ∨ b.top_left_x + b.width < a.top_left_x) →
        are_colliding a b = false)
    ∧ (∀ a b : CollisionRect,
        (a.top_left_y + a.height < b.top_left_y ∨ b.top_left_y + b.height < a.top_left_y) →
        are_colliding a b = false) := by
  refine ⟨are_colliding_iff, ?_, ?_, ?_, ?_⟩
  · intro a b h
    rw [Bool.eq_false_iff, Ne, are_colliding_iff]
    rcases h with h | h | h | h <;> intro hcoll <;>
      [linarith [hcoll.2.1]; linarith [hcoll.1]; linarith [hcoll.2.2.2]; linarith [hcoll.2.2.1]]
  · intro r hw hh
    rw [are_colliding_iff]
    refine ⟨by linarith, by linarith, by linarith, by linarith⟩
  · intro a b h
    rw [Bool.eq_false_iff, Ne, are_colliding_iff]
    rcases h with h | h <;> intro hcoll <;> [linarith [hcoll.2.1]; linarith [hcoll.1]]
  · intro a b h
    rw [Bool.eq_false_iff, Ne, are_colliding_iff]
    rcases h with h | h <;> intro hcoll <;> [linarith [hcoll.2.2.2]; linarith [hcoll.2.2.1]]

/-- Witness for C4 at concrete rectangles: self-collision, edge touch, and a
gap on each axis. -/
theorem are_colliding_spec_witness :
    are_colliding ⟨0, 0, 2, 2⟩ ⟨0, 0, 2, 2⟩ = true ∧
    are_colliding ⟨0, 0, 2, 2⟩ ⟨2, 0, 2, 2⟩ = false ∧
    are_colliding ⟨0, 0, 2, 2⟩ ⟨5, 0, 2, 2⟩ = false ∧
    are_colliding ⟨0, 0, 2, 2⟩ ⟨0, 5, 2, 2⟩ = false :=
  ⟨are_colliding_spec.2.2.1 ⟨0, 0, 2, 2⟩ (by norm_num) (by norm_num),
   are_colliding_spec.2.1 ⟨0, 0, 2, 2⟩ ⟨2, 0, 2, 2⟩ (Or.inl (by norm_num)),
   are_colliding_spec.2.2.2.1 ⟨0, 0, 2, 2⟩ ⟨5, 0, 2, 2⟩ (Or.inl (by norm_num)),
   are_colliding_spec.2.2.2.2 ⟨0, 0, 2, 2⟩ ⟨0, 5, 2, 2⟩ (Or.inl (by norm_num))⟩

/-- Claim C7: `move_down` adds `500 * dt_seconds` to the y-coordinate and
leaves x unchanged; consequently the y-coordinate is non-decreasing across
any sequence of advances by non-negative durations. -/
theorem move_down_spec :
    (∀ (b : Bullet) (dt : ℚ),
      (b.move_down dt).pos.1 = b.pos.1 ∧
      (b.move_down dt).pos.2 = b.pos.2 + 500 * (dt / 1000))
    ∧ (∀ (b : Bullet) (dts : List ℚ), (∀ t ∈ dts, 0 ≤ t) →
      b.pos.2 ≤ (dts.foldl (fun acc t => acc.move_down t) b).pos.2) := by
  constructor
  · intro b dt
    simp [Bullet.move_down, VELOCITY]
  · intro b dts
    induction dts generalizing b with
    | nil => intro _; simp
    | cons t ts ih =>
      intro h
      have ht : 0 ≤ t := h t (List.mem_cons_self t ts)
      have hstep : b.pos.2 ≤ (b.move_down t).pos.2 := by
        simp only [Bullet.move_down, VELOCITY]
        have : (0 : ℚ) ≤ 500 * (t / 1000) := by positivity
        linarith
      calc b.pos.2 ≤ (b.move_down t).pos.2 := hstep
        _ ≤ (ts.foldl (fun acc u => acc.move_down u) (b.move_down t)).pos.2 :=
            ih (b.move_down t) (fun u hu => h u (List.mem_cons_of_mem t hu))
        _ = ((t :: ts).foldl (fun acc u => acc.move_down u) b).pos.2 := by
            simp [List.foldl_cons]

/-- Witness for C7: a concrete bullet advanced by the sequence [16ms, 0ms]
does not move up. -/
theorem move_down_spec_witness :
    (⟨(50, 300), BulletColor.Green, 8, 16⟩ : Bullet).pos.2 ≤
      (([16, 0] : List ℚ).foldl (fun acc t => acc.move_down t)
        (⟨(50, 300), BulletColor.Green, 8, 16⟩ : Bullet)).pos.2 :=
  move_down_spec.2 ⟨(50, 300), BulletColor.Green, 8, 16⟩ [16, 0] (by
    intro t ht
    rcases List.mem_cons.mp ht with h | h
    · norm_num [h]
    · rcases List.mem_cons.mp h with h2 | h2
      · norm_num [h2]
      · simp at h2)

/-- The collision loop of `tick` folded over the bullet list: the final
`(game_over, score)` pair equals the starting flag or-ed with "some colliding
bullet is deadly", and the starting score plus the number of colliding
harmless bullets (no early exit). -/
lemma resolve_foldl (p : CollisionRect) (bs : List Bullet) :
    ∀ (go : Bool) (sc : ℕ),
      bs.foldl (fun acc bullet =>
          if are_colliding p bullet.rect then
            if bullet.deadly then (true, acc.2) else (acc.1, acc.2 + 1)
          else acc) (go, sc) =
        (go || bs.any (fun bullet => are_colliding p bullet.rect && bullet.deadly),
         sc + (bs.filter (fun bullet => are_colliding p bullet.rect && !bullet.deadly)).length) := by
  induction bs with
  | nil => intro go sc; simp
  | cons b bs ih =>
    intro go sc
    cases hc : are_colliding p b.rect with
    | false => simp [hc, ih]
    | true =>
      cases hd : b.deadly with
      | false =>
        simp [hc, hd, ih]
        omega
      | true =>
        simp [hc, hd, ih]

/-- Closed forms of the `game_over`, `score` and `bullets` fields produced by
one `tick`, all phrased over the post-advance bullet list. -/
lemma tick_fields (g : Game) (dt : ℚ) (d : Draws) :
    (tick g dt d).game_over =
      (g.game_over || (advancedBullets g dt d).any
        (fun bullet => are_colliding g.player.rect bullet.rect && bullet.deadly)) ∧
    (tick g dt d).score =
      g.score + ((advancedBullets g dt d).filter
        (fun bullet => are_colliding g.player.rect bullet.rect && !bullet.deadly)).length ∧
    (tick g dt d).bullets =
      ((advancedBullets g dt d).filter
        (fun bullet => !(are_colliding g.player.rect bullet.rect))).filter
        (fun bullet => distance_lt bullet.pos (0, 0)
          ((g.screen_size.1 * g.screen_size.2 : ℕ) : ℚ)) := by
  refine ⟨?_, ?_, ?_⟩ <;> simp only [tick, clean_up_out_of_bounds_bullets, resolve_foldl]

/-- Claim C1: in every tick, after projectiles advance and the enemy possibly
fires, the collision loop applies every colliding projectile's effect with no
early exit (deadly sets game-over, harmless adds exactly 1 to the score), and
every colliding projectile is removed from the live set; in the scenario of a
harmless projectile touching the player's bounding box before the tick, one
tick adds 1 to the score, leaves game-over unchanged, and removes the
projectile. -/
theorem tick_collision_spec :
    (∀ (g : Game) (dt : ℚ) (d : Draws),
      (tick g dt d).game_over =
        (g.game_over || (advancedBullets g dt d).any
          (fun bullet => are_colliding g.player.rect bullet.rect && bullet.deadly)) ∧
      (tick g dt d).score =
        g.score + ((advancedBullets g dt d).filter
          (fun bullet => are_colliding g.player.rect bullet.rect && !bullet.deadly)).length ∧
      (tick g dt d).bullets =
        ((advancedBullets g dt d).filter
          (fun bullet => !(are_colliding g.player.rect bullet.rect))).filter
          (fun bullet => distance_lt bullet.pos (0, 0)
            ((g.screen_size.1 * g.screen_size.2 : ℕ) : ℚ)))
    ∧ ((tick gC1 16 dC1).score = gC1.score + 1 ∧
       (tick gC1 16 dC1).game_over = gC1.game_over ∧
       (tick gC1 16 dC1).bullets = []) := by
  constructor
  · exact tick_fields
  · refine ⟨?_, ?_, ?_⟩ <;>
      norm_num [tick, gC1, dC1, advancedBullets, Alien.update, Alien.updateMovement,
        Alien.starting_at, Bullet.move_down, VELOCITY, are_colliding, Player.rect,
        Bullet.rect, clean_up_out_of_bounds_bullets, distance_lt, Bullet.deadly]

/-- Single-step form of C8: one tick never clears the game-over flag. -/
lemma tick_game_over_mono (g : Game) (dt : ℚ) (d : Draws) (h : g.game_over = true) :
    (tick g dt d).game_over = true := by
  rw [(tick_fields g dt d).1, h, Bool.true_or]

/-- Claim C8: once the game-over flag is true, any sequence of subsequent
ticks leaves it true — the core never resets it to false. -/
theorem game_over_never_cleared (g : Game) (steps : List (ℚ × Draws))
    (h : g.game_over = true) : (runTicks g steps).game_over = true := by
  induction steps generalizing g with
  | nil => simpa [runTicks] using h
  | cons s rest ih =>
    have hstep := tick_game_over_mono g s.1 s.2 h
    simpa [runTicks, List.foldl_cons] using ih (tick g s.1 s.2) hstep

/-- Witness for C8: two concrete ticks after game over keep the flag true. -/
theorem game_over_never_cleared_witness :
    (runTicks gC8 [(16, ⟨50, 1000, false, 500⟩), (16, ⟨100, 400, true, 300⟩)]).game_over =
      true :=
  game_over_never_cleared gC8 [(16, ⟨50, 1000, false, 500⟩), (16, ⟨100, 400, true, 300⟩)]
    (by rfl)

/-- The movement block never touches the firing plan or the movement range,
and always leaves a movement plan installed. -/
lemma updateMovement_fields (a : Alien) (now : ℚ) (d : Draws) :
    (a.updateMovement now d).firing_plan = a.firing_plan ∧
    (a.updateMovement now d).x_movement_range = a.x_movement_range ∧
    ((a.updateMovement now d).movement_plan).isSome = true := by
  simp only [Alien.updateMovement]
  cases hm : a.movement_plan with
  | none => simp
  | some plan =>
    by_cases hlt : plan.plan_made + plan.duration < now <;> simp [hlt]

/-- The firing block never touches the position, the movement plan or the
movement range of the post-movement alien state. -/
lemma update_fst_fields (a : Alien) (now : ℚ) (d : Draws) (f : BulletFactoryImpl) :
    (a.update now d f).1.pos = (a.updateMovement now d).pos ∧
    (a.update now d f).1.movement_plan = (a.updateMovement now d).movement_plan ∧
    (a.update now d f).1.x_movement_range = (a.updateMovement now d).x_movement_range := by
  simp only [Alien.update]
  cases hf : (a.updateMovement now d).firing_plan with
  | none => simp
  | some plan =>
    by_cases hlt : plan.plan_made + plan.delay < now <;> simp [hlt]

/-- Claim C10: after any call to the planner's update both plans are present,
and a first call on a plan-free alien installs both plans without moving the
enemy or emitting a projectile. -/
theorem update_installs_plans (a : Alien) (now : ℚ) (d : Draws) (f : BulletFactoryImpl) :
    ((a.update now d f).1.movement_plan).isSome = true ∧
    ((a.update now d f).1.firing_plan).isSome = true ∧
    (a.movement_plan = none → a.firing_plan = none →
      (a.update now d f).1.pos = a.pos ∧ (a.update now d f).2 = none) := by
  refine ⟨?_, ?_, ?_⟩
  · rw [(update_fst_fields a now d f).2.1]
    exact (updateMovement_fields a now d).2.2
  · simp only [Alien.update]
    cases hf : (a.updateMovement now d).firing_plan with
    | none => simp
    | some plan =>
      by_cases hlt : plan.plan_made + plan.delay < now <;> simp [hlt, hf]
  · intro hm hf
    have hpos : (a.updateMovement now d).pos = a.pos := by
      simp [Alien.updateMovement, hm]
    have hfp : (a.updateMovement now d).firing_plan = none :=
      (updateMovement_fields a now d).1.trans hf
    constructor
    · rw [(update_fst_fields a now d f).1, hpos]
    · simp [Alien.update, hfp]

/-- Witness for C10 at a concrete plan-free alien. -/
theorem update_installs_plans_witness :
    (((Alien.starting_at (50, 50) (0, 800)).update 0 ⟨50, 1000, false, 500⟩
        ⟨8, 16, 8, 16⟩).1.movement_plan).isSome = true ∧
    (((Alien.starting_at (50, 50) (0, 800)).update 0 ⟨50, 1000, false, 500⟩
        ⟨8, 16, 8, 16⟩).1.firing_plan).isSome = true ∧
    ((Alien.starting_at (50, 50) (0, 800)).update 0 ⟨50, 1000, false, 500⟩
        ⟨8, 16, 8, 16⟩).1.pos = (Alien.starting_at (50, 50) (0, 800)).pos ∧
    ((Alien.starting_at (50, 50) (0, 800)).update 0 ⟨50, 1000, false, 500⟩
        ⟨8, 16, 8, 16⟩).2 = none := by
  have h := update_installs_plans (Alien.starting_at (50, 50) (0, 800)) 0
    ⟨50, 1000, false, 500⟩ ⟨8, 16, 8, 16⟩
  exact ⟨h.1, h.2.1, (h.2.2 rfl rfl).1, (h.2.2 rfl rfl).2⟩

/-- Claim C2 (amended): with an existing firing plan, the planner fires iff
`plan_created + delay < now` (strictly): it then emits exactly one projectile
at the enemy's current (post-movement) position with lethality equal to the
plan's stored `dangerous` flag, and immediately installs a fresh plan built
from the new draws, whose delay (drawn by `gen_range(200, 700)`) lies in
[200ms, 700ms); if `now ≤ plan_created + delay` no projectile is emitted and
the plan is kept unchanged. -/
theorem firing_update_spec (a : Alien) (now : ℚ) (d : Draws) (f : BulletFactoryImpl)
    (p : FiringPlan) (hp : a.firing_plan = some p)
    (hdel : 200 ≤ d.delay ∧ d.delay < 700) :
    (p.plan_made + p.delay < now →
      (a.update now d f).2 =
        some (if p.dangerous then f.red_bullet (a.update now d f).1.pos
              else f.green_bullet (a.update now d f).1.pos) ∧
      ((a.update now d f).2.map Bullet.deadly) = some p.dangerous ∧
      (∃ q : FiringPlan, (a.update now d f).1.firing_plan = some q ∧
        q.dangerous = d.dangerous ∧ q.plan_made = now ∧ q.delay = d.delay ∧
        200 ≤ q.delay ∧ q.delay < 700))
    ∧ (¬ (p.plan_made + p.delay < now) →
      (a.update now d f).2 = none ∧ (a.update now d f).1.firing_plan = some p) := by
  have hfp : (a.updateMovement now d).firing_plan = some p :=
    (updateMovement_fields a now d).1.trans hp
  constructor
  · intro hlt
    refine ⟨?_, ?_, ?_⟩
    · simp [Alien.update, hfp, hlt]
    · cases hd : p.dangerous <;>
        simp [Alien.update, hfp, hlt, hd, BulletFactoryImpl.red_bullet,
          BulletFactoryImpl.green_bullet, Bullet.deadly]
    · refine ⟨⟨d.dangerous, now, d.delay⟩, ?_, rfl, rfl, rfl, hdel.1, hdel.2⟩
      simp [Alien.update, hfp, hlt]
  · intro hlt
    constructor <;> simp [Alien.update, hfp, hlt]

/-- Witness for the amended C2 at a concrete expired plan: exactly one red
(lethal) projectile is emitted and the fresh plan stores the new draws. -/
theorem firing_update_spec_witness :
    (aC2w.update 1500 dC2 fC2).2 =
      some (if (true : Bool) then fC2.red_bullet (aC2w.update 1500 dC2 fC2).1.pos
            else fC2.green_bullet (aC2w.update 1500 dC2 fC2).1.pos) ∧
    ((aC2w.update 1500 dC2 fC2).2.map Bullet.deadly) = some true ∧
    (∃ q : FiringPlan, (aC2w.update 1500 dC2 fC2).1.firing_plan = some q ∧
      q.dangerous = false ∧ q.plan_made = 1500 ∧ q.delay = 500 ∧
      200 ≤ q.delay ∧ q.delay < 700) := by
  have h := firing_update_spec aC2w 1500 dC2 fC2 ⟨true, 0, 1000⟩ rfl
    (by constructor <;> norm_num [dC2])
  have hlt : (0 : ℚ) + 1000 < 1500 := by norm_num
  exact (h.1 hlt)

/-- Counterexample to C2 as stated: at `now = plan_created + delay` (so
`now ≥ plan_created + delay` holds) the planner emits nothing and keeps the
old plan, because the source's expiry test `plan_made + delay < now` is
strict. -/
theorem firing_boundary_cex :
    aC2.firing_plan = some ⟨false, 0, 1000⟩ ∧
    (1000 : ℚ) ≥ 0 + 1000 ∧
    (aC2.update 1000 dC2 fC2).2 = none ∧
    (aC2.update 1000 dC2 fC2).1.firing_plan = some ⟨false, 0, 1000⟩ := by
  refine ⟨rfl, by norm_num, ?_, ?_⟩ <;>
    norm_num [aC2, dC2, fC2, Alien.update, Alien.updateMovement]

/-- Claim C3 (amended): with an existing movement plan, the position snaps
exactly to the plan's target and a new plan is drawn in the same call iff
`plan_created + duration < now` (strictly) — whenever `now` is not strictly
past expiry (the boundary instant and the whole mid-tween phase alike) no new
plan is drawn and the stored plan is kept unchanged; at
`now = plan_created + duration` with a non-zero duration the tween already
places the enemy exactly on the target; and the movement sub-plan never
returns to the no-plan state after any update. -/
theorem movement_update_spec (a : Alien) (now : ℚ) (d : Draws) (f : BulletFactoryImpl)
    (p : MovementPlan) (hp : a.movement_plan = some p) :
    ((a.update now d f).1.movement_plan).isSome = true ∧
    (p.plan_made + p.duration < now →
      (a.update now d f).1.pos = p.next_pos ∧
      (a.update now d f).1.movement_plan =
        some ({ start_pos := a.pos, next_pos := (d.target, a.pos.2), plan_made := now,
                duration := d.duration } : MovementPlan))
    ∧ (now = p.plan_made + p.duration → p.duration ≠ 0 →
      (a.update now d f).1.pos = p.next_pos ∧
      (a.update now d f).1.movement_plan = some p)
    ∧ (¬ (p.plan_made + p.duration < now) →
      (a.update now d f).1.movement_plan = some p) := by
  have hfst := update_fst_fields a now d f
  refine ⟨?_, ?_, ?_, ?_⟩
  · rw [hfst.2.1]
    exact (updateMovement_fields a now d).2.2
  · intro hlt
    rw [hfst.1, hfst.2.1]
    constructor <;> simp [Alien.updateMovement, hp, hlt]
  · intro heq hdur
    have hnlt : ¬ (p.plan_made + p.duration < now) := by rw [heq]; exact lt_irrefl _
    have hpct : (now - p.plan_made) / p.duration = 1 := by
      rw [heq]
      field_simp
    rw [hfst.1, hfst.2.1]
    constructor
    · simp only [Alien.updateMovement, hp, if_neg hnlt, hpct]
      have h1 : p.start_pos.1 + 1 * (p.next_pos.1 - p.start_pos.1) = p.next_pos.1 := by ring
      have h2 : p.start_pos.2 + 1 * (p.next_pos.2 - p.start_pos.2) = p.next_pos.2 := by ring
      rw [h1, h2]
    · simp [Alien.updateMovement, hp, hnlt]
  · intro hnlt
    rw [hfst.2.1]
    simp [Alien.updateMovement, hp, hnlt]

/-- Witness for the amended C3: at a concrete expired plan the position snaps
to the target and a freshly stamped plan replaces it; mid-tween (the same
plan updated at t=500) the stored plan is kept unchanged. -/
theorem movement_update_spec_witness :
    ((aC3w.update 1500 dC3 fC2).1.movement_plan).isSome = true ∧
    (aC3w.update 1500 dC3 fC2).1.pos = (100, 50) ∧
    (aC3w.update 1500 dC3 fC2).1.movement_plan =
      some ({ start_pos := (40, 50), next_pos := (200, 50), plan_made := 1500,
              duration := 700 } : MovementPlan) ∧
    (aC3w.update 500 dC3 fC2).1.movement_plan =
      some (⟨(0, 50), (100, 50), 0, 1000⟩ : MovementPlan) := by
  have h := movement_update_spec aC3w 1500 dC3 fC2 ⟨(0, 50), (100, 50), 0, 1000⟩ rfl
  have h2 := movement_update_spec aC3w 500 dC3 fC2 ⟨(0, 50), (100, 50), 0, 1000⟩ rfl
  have hlt : (0 : ℚ) + 1000 < 1500 := by norm_num
  exact ⟨h.1, (h.2.1 hlt).1, (h.2.1 hlt).2, h2.2.2.2 (by norm_num)⟩

/-- Counterexample to C3 as stated: at `now = plan_created + duration` (so
`now ≥ plan_created + duration` holds) no new movement plan is drawn in that
call — the stored plan survives with its old creation stamp, because the
source's expiry test `plan_made + duration < now` is strict. -/
theorem movement_boundary_cex :
    aC3.movement_plan = some ⟨(0, 50), (100, 50), 0, 1000⟩ ∧
    (1000 : ℚ) ≥ 0 + 1000 ∧
    (aC3.update 1000 dC3 fC2).1.movement_plan = some ⟨(0, 50), (100, 50), 0, 1000⟩ ∧
    ((aC3.update 1000 dC3 fC2).1.movement_plan).map MovementPlan.plan_made ≠ some 1000 := by
  have hplan : (aC3.update 1000 dC3 fC2).1.movement_plan =
      some (⟨(0, 50), (100, 50), 0, 1000⟩ : MovementPlan) := by
    norm_num [aC3, dC3, fC2, Alien.update, Alien.updateMovement]
  refine ⟨rfl, by norm_num, hplan, ?_⟩
  rw [hplan]
  simp only [Option.map_some']
  intro hcontra
  have := Option.some.inj hcontra
  norm_num at this

/-- A linear interpolation with coefficient in [0, 1] between two points of
an interval stays in the interval. -/
lemma tween_mem (lo hi s e pct : ℚ) (hs : lo ≤ s) (hs2 : s ≤ hi) (he : lo ≤ e)
    (he2 : e ≤ hi) (h0 : 0 ≤ pct) (h1 : pct ≤ 1) :
    lo ≤ s + pct * (e - s) ∧ s + pct * (e - s) ≤ hi := by
  constructor <;> nlinarith

/-- One movement block preserves the x-coordinate invariant when time moves
forward and the draws respect the generator ranges. -/
lemma updateMovement_inv (lo hi t now : ℚ) (a : Alien) (d : Draws)
    (hinv : AlienInv lo hi t a) (ht : t ≤ now) (hd : DrawsOk lo hi d) :
    AlienInv lo hi now (a.updateMovement now d) := by
  obtain ⟨hrange, hlo, hhi, hplan⟩ := hinv
  obtain ⟨hdt1, hdt2, hdd1, hdd2⟩ := hd
  unfold AlienInv
  simp only [Alien.updateMovement]
  cases hm : a.movement_plan with
  | none =>
    refine ⟨hrange, hlo, hhi, ?_⟩
    intro p hp
    simp only [Option.some.injEq] at hp
    subst hp
    refine ⟨hlo, hhi, ?_, ?_, le_refl _, by linarith⟩
    · simpa using hdt1
    · simpa using le_of_lt hdt2
  | some plan =>
    have hpf := hplan plan hm
    by_cases hlt : plan.plan_made + plan.duration < now
    · simp only [if_pos hlt]
      refine ⟨hrange, hpf.2.2.1, hpf.2.2.2.1, ?_⟩
      intro p hp
      simp only [Option.some.injEq] at hp
      subst hp
      exact ⟨hlo, hhi, hdt1, le_of_lt hdt2, le_refl _, by linarith⟩
    · simp only [if_neg hlt]
      have hnow : now ≤ plan.plan_made + plan.duration := le_of_not_lt hlt
      have h0 : 0 ≤ (now - plan.plan_made) / plan.duration :=
        div_nonneg (by linarith [hpf.2.2.2.2.1]) (le_of_lt hpf.2.2.2.2.2)
      have h1 : (now - plan.plan_made) / plan.duration ≤ 1 := by
        rw [div_le_one hpf.2.2.2.2.2]
        linarith
      have hmem := tween_mem lo hi plan.start_pos.1 plan.next_pos.1
        ((now - plan.plan_made) / plan.duration) hpf.1 hpf.2.1 hpf.2.2.1 hpf.2.2.2.1 h0 h1
      refine ⟨hrange, hmem.1, hmem.2, ?_⟩
      intro p hp
      simp only [Option.some.injEq] at hp
      subst hp
      exact ⟨hpf.1, hpf.2.1, hpf.2.2.1, hpf.2.2.2.1, le_trans hpf.2.2.2.2.1 ht,
        hpf.2.2.2.2.2⟩

/-- One full `Alien::update` preserves the x-coordinate invariant (the firing
block does not touch position, movement plan or range). -/
lemma update_inv (lo hi t now : ℚ) (a : Alien) (d : Draws) (f : BulletFactoryImpl)
    (hinv : AlienInv lo hi t a) (ht : t ≤ now) (hd : DrawsOk lo hi d) :
    AlienInv lo hi now ((a.update now d f).1) := by
  have h := updateMovement_inv lo hi t now a d hinv ht hd
  have hf := update_fst_fields a now d f
  unfold AlienInv at h ⊢
  rw [hf.1, hf.2.1, hf.2.2]
  exact h

/-- The x-coordinate invariant carries through a monotone-in-time sequence of
updates with in-range draws. -/
lemma runUpdates_inv (lo hi : ℚ) (f : BulletFactoryImpl) :
    ∀ (steps : List (ℚ × Draws)) (a : Alien) (t : ℚ),
      AlienInv lo hi t a →
      List.Chain' (fun x y => x ≤ y) (t :: steps.map Prod.fst) →
      (∀ s ∈ steps, DrawsOk lo hi s.2) →
      ∃ t2, AlienInv lo hi t2 (runUpdates a f steps) := by
  intro steps
  induction steps with
  | nil =>
    intro a t h _ _
    exact ⟨t, by simpa [runUpdates] using h⟩
  | cons s rest ih =>
    intro a t h hchain hd
    have hts : t ≤ s.1 := (List.chain'_cons.mp (by simpa using hchain)).1
    have hrest : List.Chain' (fun x y => x ≤ y) (s.1 :: rest.map Prod.fst) :=
      (List.chain'_cons.mp (by simpa using hchain)).2
    have h1 := update_inv lo hi t s.1 a s.2 f h hts (hd s (List.mem_cons_self s rest))
    have h2 := ih ((a.update s.1 s.2 f).1) s.1 h1 hrest
      (fun u hu => hd u (List.mem_cons_of_mem s hu))
    simpa [runUpdates, List.foldl_cons] using h2

/-- Claim C5 (amended): if the enemy starts with its x-coordinate inside the
movement bound `[min_x, max_x]` and no movement plan, then along any sequence
of updates with non-decreasing times and draws respecting the generator
ranges, `min_x ≤ x ≤ max_x` holds at every moment — every drawn target lies
in the bound and the tween never overshoots its own drawn target. -/
theorem alien_x_bounded (lo hi : ℚ) (a : Alien) (f : BulletFactoryImpl)
    (steps : List (ℚ × Draws))
    (hr : a.x_movement_range = (lo, hi)) (hlo : lo ≤ a.pos.1) (hhi : a.pos.1 ≤ hi)
    (hmp : a.movement_plan = none)
    (hchain : List.Chain' (fun x y => x ≤ y) (steps.map Prod.fst))
    (hd : ∀ s ∈ steps, DrawsOk lo hi s.2) :
    lo ≤ (runUpdates a f steps).pos.1 ∧ (runUpdates a f steps).pos.1 ≤ hi := by
  cases steps with
  | nil => exact ⟨by simpa [runUpdates] using hlo, by simpa [runUpdates] using hhi⟩
  | cons s rest =>
    have hinv : AlienInv lo hi s.1 a := by
      refine ⟨hr, hlo, hhi, ?_⟩
      intro p hp
      rw [hmp] at hp
      cases hp
    have hchain2 : List.Chain' (fun x y => x ≤ y) (s.1 :: (s :: rest).map Prod.fst) := by
      simp only [List.map_cons]
      exact List.chain'_cons.2 ⟨le_refl _, by simpa using hchain⟩
    obtain ⟨t2, h2⟩ := runUpdates_inv lo hi f (s :: rest) a s.1 hinv hchain2 hd
    exact ⟨h2.2.1, h2.2.2.1⟩

/-- Witness for the amended C5: a concrete two-update run stays within the
movement bound. -/
theorem alien_x_bounded_witness :
    (0 : ℚ) ≤ (runUpdates aC5w fC2 [(0, dC5), (500, dC5)]).pos.1 ∧
    (runUpdates aC5w fC2 [(0, dC5), (500, dC5)]).pos.1 ≤ 100 := by
  refine alien_x_bounded 0 100 aC5w fC2 [(0, dC5), (500, dC5)] rfl (by norm_num [aC5w,
    Alien.starting_at]) (by norm_num [aC5w, Alien.starting_at]) rfl ?_ ?_
  · simp only [List.map_cons, List.map_nil]
    exact List.chain'_cons.2 ⟨by norm_num, List.chain'_singleton _⟩
  · intro s hs
    rcases List.mem_cons.mp hs with h | h
    · rw [h]
      exact ⟨by norm_num [dC5], by norm_num [dC5], by norm_num [dC5], by norm_num [dC5]⟩
    · rcases List.mem_cons.mp h with h2 | h2
      · rw [h2]
        exact ⟨by norm_num [dC5], by norm_num [dC5], by norm_num [dC5], by norm_num [dC5]⟩
      · simp at h2

/-- Counterexample to C5 as stated: after the run [(0), (1001), (1501)] the
first movement plan has resolved at t=1001 (position snapped to the drawn
target (50, 50)), yet at t=1501 the x-coordinate is -25, outside the bound
[0, 100].  The source's plan generator captures the pre-snap position as the
new plan's `start_pos`, so the next tween re-interpolates from the
out-of-bound entry position. -/
theorem alien_x_escape_cex :
    aC5.x_movement_range = (0, 100) ∧
    (runUpdates aC5 fC2 [(0, dC5), (1001, dC5)]).pos = (50, 50) ∧
    (runUpdates aC5 fC2 [(0, dC5), (1001, dC5), (1501, dC5)]).pos.1 = -25 ∧
    ((-25 : ℚ) < 0) := by
  refine ⟨rfl, ?_, ?_, by norm_num⟩ <;>
    norm_num [runUpdates, aC5, dC5, fC2, Alien.starting_at, Alien.update,
      Alien.updateMovement, BulletFactoryImpl.green_bullet, BulletFactoryImpl.red_bullet]

/-- Advancing a bullet by a zero duration leaves it unchanged. -/
lemma move_down_zero (b : Bullet) : b.move_down 0 = b := by
  simp [Bullet.move_down, VELOCITY]

/-- Advancing every bullet by a zero duration leaves the list unchanged. -/
lemma map_move_down_zero (bs : List Bullet) :
    bs.map (fun b => b.move_down 0) = bs := by
  induction bs with
  | nil => rfl
  | cons b bs ih => simp [move_down_zero, ih]

/-- Applying any intent for a zero duration leaves the player unchanged. -/
lemma execute_intent_zero (p : Player) (i : PlayerIntent) :
    p.execute_intent i 0 = p := by
  cases i <;> simp [Player.execute_intent, PLAYER_SPEED]

/-- `Alien::update` is the identity (and fires nothing) when both stored
plans are unexpired at `now` and the position agrees with the movement
plan's tween at `now`. -/
lemma update_fixed (a : Alien) (now : ℚ) (d : Draws) (f : BulletFactoryImpl)
    (mp : MovementPlan) (hm : a.movement_plan = some mp)
    (hmu : ¬ (mp.plan_made + mp.duration < now))
    (hpos : a.pos =
      (mp.start_pos.1 + (now - mp.plan_made) / mp.duration * (mp.next_pos.1 - mp.start_pos.1),
       mp.start_pos.2 + (now - mp.plan_made) / mp.duration * (mp.next_pos.2 - mp.start_pos.2)))
    (fp : FiringPlan) (hf : a.firing_plan = some fp)
    (hfu : ¬ (fp.plan_made + fp.delay < now)) :
    a.update now d f = (a, none) := by
  have hmove : a.updateMovement now d = a := by
    simp only [Alien.updateMovement, hm, if_neg hmu]
    rw [← hpos, ← hm]
  simp only [Alien.update, hmove, hf, if_neg hfu]

/-- Claim C6 (amended): ticking with `dt = 0` is the identity on the whole
simulation state, provided the state carries no effect that was already due:
no live projectile currently collides with the player, every live projectile
is inside the play bound, both enemy plans are present and unexpired at the
current clock, and the enemy position agrees with its movement plan's tween
at the current clock. -/
theorem tick_zero_dt (g : Game) (d : Draws) (mp : MovementPlan) (fp : FiringPlan)
    (hm : g.alien.movement_plan = some mp)
    (hmu : ¬ (mp.plan_made + mp.duration < g.last_tick))
    (hpos : g.alien.pos =
      (mp.start_pos.1 +
        (g.last_tick - mp.plan_made) / mp.duration * (mp.next_pos.1 - mp.start_pos.1),
       mp.start_pos.2 +
        (g.last_tick - mp.plan_made) / mp.duration * (mp.next_pos.2 - mp.start_pos.2)))
    (hf : g.alien.firing_plan = some fp)
    (hfu : ¬ (fp.plan_made + fp.delay < g.last_tick))
    (hnc : ∀ b ∈ g.bullets, are_colliding g.player.rect b.rect = false)
    (hin : ∀ b ∈ g.bullets,
      distance_lt b.pos (0, 0) ((g.screen_size.1 * g.screen_size.2 : ℕ) : ℚ) = true) :
    tick g 0 d = g := by
  have hup := update_fixed g.alien g.last_tick d g.sprites mp hm hmu hpos fp hf hfu
  have hadv : advancedBullets g 0 d = g.bullets := by
    simp only [advancedBullets, add_zero, hup]
    exact map_move_down_zero _
  have hany : g.bullets.any
      (fun bullet => are_colliding g.player.rect bullet.rect && bullet.deadly) = false := by
    rw [List.any_eq_false]
    intro b hb
    simp [hnc b hb]
  have hfil : g.bullets.filter
      (fun bullet => are_colliding g.player.rect bullet.rect && !bullet.deadly) = [] := by
    rw [List.filter_eq_nil_iff]
    intro b hb
    simp [hnc b hb]
  have hfil2 : g.bullets.filter
      (fun bullet => !(are_colliding g.player.rect bullet.rect)) = g.bullets := by
    rw [List.filter_eq_self]
    intro b hb
    simp [hnc b hb]
  have hfil3 : g.bullets.filter
      (fun bullet => distance_lt bullet.pos (0, 0)
        ((g.screen_size.1 * g.screen_size.2 : ℕ) : ℚ)) = g.bullets :=
    List.filter_eq_self.mpr hin
  have hpl : g.player.execute_intent g.player_intent 0 = g.player :=
    execute_intent_zero _ _
  simp only [tick, clean_up_out_of_bounds_bullets, add_zero, hup, hadv, resolve_foldl,
    hany, hfil, hfil2, hfil3, hpl, Bool.or_false, List.length_nil, Nat.add_zero]

/-- Witness for the amended C6: a zero-dt tick fixes the concrete steady
state. -/
theorem tick_zero_dt_witness : tick gC6w 0 dC5 = gC6w := by
  refine tick_zero_dt gC6w dC5 ⟨(50, 50), (80, 50), 0, 1000⟩ ⟨false, 0, 1000⟩ rfl
    (by norm_num [gC6w]) (by norm_num [gC6w]) rfl (by norm_num [gC6w]) ?_ ?_
  · intro b hb
    rcases List.mem_cons.mp hb with h | h
    · rw [h]
      norm_num [gC6w, are_colliding, Player.rect, Bullet.rect]
    · simp [gC6w] at h
  · intro b hb
    rcases List.mem_cons.mp hb with h | h
    · rw [h]
      norm_num [gC6w, distance_lt]
    · simp [gC6w] at h

/-- Counterexample to C6 as stated: ticking `gC6` with `dt = 0` resolves the
pre-existing overlap, incrementing the score from 0 to 1 (and removing the
projectile), so a zero-dt tick is not the identity on every state. -/
theorem tick_zero_cex : gC6.score = 0 ∧ (tick gC6 0 dC5).score = 1 := by
  constructor
  · rfl
  · norm_num [tick, gC6, dC5, advancedBullets, Alien.update, Alien.updateMovement,
      Bullet.move_down, VELOCITY, are_colliding, Player.rect, Bullet.rect,
      clean_up_out_of_bounds_bullets, distance_lt, Bullet.deadly]

/-- Claim C9 (amended): the core applies no precondition check to `dt`: even
for a negative `dt` the tick entry point reports success (never a
precondition-violation error) and silently advances the simulation clock to
`last_tick + dt` by the same unchecked formulas.  (In the source, negative
and non-finite `dt` are excluded by the `Duration` input type rather than
detected at runtime.) -/
theorem tick_no_dt_check (g : Game) (dt : ℚ) (d : Draws) (_hneg : dt < 0) :
    (tickResult g dt d).isOk = true ∧
    (tick g dt d).last_tick = g.last_tick + dt ∧
    tick g dt d = (tickResult g dt d).toOption.getD g := by
  refine ⟨rfl, ?_, rfl⟩
  simp only [tick, clean_up_out_of_bounds_bullets]

/-- Counterexample to C9 as stated: called with `dt = -16` ms the core
reports no precondition violation (the result is `ok`) and silently moves
position state: the projectile's y-coordinate drops from 300 to 292 and the
clock moves backwards to 984. -/
theorem tick_negative_dt_cex :
    (tickResult gC9 (-16) dC5).isOk = true ∧
    gC9.bullets.map Bullet.pos = [(50, 300)] ∧
    (tick gC9 (-16) dC5).bullets.map Bullet.pos = [(50, 292)] ∧
    (tick gC9 (-16) dC5).last_tick = 984 := by
  refine ⟨rfl, rfl, ?_, ?_⟩ <;>
    norm_num [tick, gC9, dC5, advancedBullets, Alien.update, Alien.updateMovement,
      Bullet.move_down, VELOCITY, are_colliding, Player.rect, Bullet.rect,
      clean_up_out_of_bounds_bullets, distance_lt, Bullet.deadly, Bullet.pos]

/-- Witness for the amended C9 at the concrete negative-dt input. -/
theorem tick_no_dt_check_witness :
    (tickResult gC9 (-16) dC5).isOk = true ∧
    (tick gC9 (-16) dC5).last_tick = gC9.last_tick + (-16) ∧
    tick gC9 (-16) dC5 = (tickResult gC9 (-16) dC5).toOption.getD gC9 :=
  tick_no_dt_check gC9 (-16) dC5 (by norm_num)
